import Mathlib

/-!
Verification of the tModLoader server control panel (`src/main.go`).

The Go program is shallowly embedded: Go strings become `List Char`,
the in-memory log slice becomes a `List GoStr`, the WebSocket client
map becomes a list of connection ids with a write-failure oracle, and
every external effect (the `screen -list` output, the hardcopy snapshot
file, the wall clock) is passed in as an explicit argument.
-/

namespace TModServer

/-- Go strings are modelled as lists of characters. -/
abbrev GoStr := List Char

/-- `strings.HasPrefix s pat` (argument order: pattern first). -/
def startsWithChars : GoStr → GoStr → Bool
  | [], _ => true
  | _ :: _, [] => false
  | p :: ps, c :: cs => p == c && startsWithChars ps cs

/-- `strings.Contains s pat`: does `pat` occur as a contiguous run in `s`? -/
def hasSubstring (pat : GoStr) : GoStr → Bool
  | [] => startsWithChars pat []
  | c :: rest => startsWithChars pat (c :: rest) || hasSubstring pat rest

/-- Go `unicode.IsSpace` restricted to the characters that can occur in the
scraped terminal output (the ASCII whitespace class Go recognises). -/
def goIsSpace (c : Char) : Bool :=
  c == ' ' || c == '\t' || c == '\n' || c == '\x0b' || c == '\x0c' || c == '\r'

/-- Leading-whitespace removal, one half of Go `strings.TrimSpace`. -/
def trimLeftChars : GoStr → GoStr
  | [] => []
  | c :: cs => if goIsSpace c then trimLeftChars cs else c :: cs

/-- Go `strings.TrimSpace`: trim the left, then the right (via reversal). -/
def goTrimSpace (s : GoStr) : GoStr :=
  (trimLeftChars (trimLeftChars s).reverse).reverse

/-- The text after the first `':'`, or `none` when the string has no colon:
the combination of Go `strings.Contains(line, ":")` with
`strings.SplitN(line, ":", 2)[1]` used by `parsePlayersLine`. -/
def afterFirstColon : GoStr → Option GoStr
  | [] => none
  | c :: cs => if c = ':' then some cs else afterFirstColon cs

/-- Go `strings.Split(s, ", ")`: cut at every leftmost non-overlapping
occurrence of the two-character separator. `acc` holds the current field
reversed. -/
def splitCS (acc : GoStr) : GoStr → List GoStr
  | [] => [acc.reverse]
  | ',' :: ' ' :: rest => acc.reverse :: splitCS [] rest
  | c :: rest => splitCS (c :: acc) rest

/-! ### String constants of `main.go` -/

def currentPlayersChars : GoStr := "Current players".toList
def playersColonChars : GoStr := "Players:".toList
def noneChars : GoStr := "None".toList
def screenNameChars : GoStr := "tmod_session".toList
def runningChars : GoStr := "running".toList
def stoppedChars : GoStr := "stopped".toList
def alreadyRunningChars : GoStr := "Server already running".toList
def notRunningChars : GoStr := "Server not running".toList
def methodNotAllowedChars : GoStr := "Method not allowed".toList
def failedStartChars : GoStr := "Failed to start server".toList
def startedAtChars : GoStr := "Server started at ".toList
def stoppedAtChars : GoStr := "Server stopped at ".toList
def couldNotSendChars : GoStr := "Could not send screen command".toList
def startedChars : GoStr := "started".toList
def exitChars : GoStr := "exit".toList

/-! ### Output scraper (`getCurrentPlayers`, `parsePlayersLine`) -/

/-- The test of the scan loop in `getCurrentPlayers`:
`strings.HasPrefix(line, "Current players") || strings.HasPrefix(line, "Players:")`. -/
def isPlayersMarker (l : GoStr) : Bool :=
  startsWithChars currentPlayersChars l || startsWithChars playersColonChars l

/-- `parsePlayersLine` of `main.go`: take the text after the first colon
(nothing to parse when there is none), `TrimSpace` it, return the empty
roster for `"None"` or the empty remainder, else split on `", "`. -/
def parsePlayersLine (line : GoStr) : List GoStr :=
  match afterFirstColon line with
  | some after =>
      let raw := goTrimSpace after
      if raw = noneChars ∨ raw = [] then [] else splitCS [] raw
  | none => []

/-- The downward `for i := len(lines)-1; i >= 0; i--` loop of
`getCurrentPlayers`, phrased as a scan over the reversed line list. -/
def findMarkerFromEnd : List GoStr → Option GoStr
  | [] => none
  | l :: earlier => if isPlayersMarker l then some l else findMarkerFromEnd earlier

/-- The pure core of `getCurrentPlayers` of `main.go`, taking the lines read
from the hardcopy file: scan from the bottom for the first marker line and
parse it; no marker anywhere means the empty roster. -/
def getCurrentPlayers (lines : List GoStr) : List GoStr :=
  match findMarkerFromEnd lines.reverse with
  | some line => parsePlayersLine line
  | none => []

/-- The extraction as the spec words it (section 4.2): find the bottommost
line beginning with one of the two accepted markers, take the remainder
after the first colon, trim whitespace at both ends, map the `"None"` or
empty remainder to the empty sequence, and otherwise split on `", "`.
Stated with library combinators (`find?` on the reversed buffer,
`dropWhile` for the colon search and the trims) to be compared with the
Go-shaped definition `getCurrentPlayers`. -/
def extractPlayersSpec (lines : List GoStr) : List GoStr :=
  match lines.reverse.find?
      (fun l => startsWithChars currentPlayersChars l
        || startsWithChars playersColonChars l) with
  | none => []
  | some line =>
      match line.dropWhile (fun c => c != ':') with
      | [] => []
      | _ :: rest =>
          let t := (((rest.dropWhile goIsSpace).reverse).dropWhile goIsSpace).reverse
          if t = noneChars ∨ t = [] then [] else splitCS [] t

/-! ### Log store (`addLog`, `getLastLogs`)

The global `logs []string` slice is threaded explicitly; the wall clock is
an explicit `clock : GoStr` argument (Go formats it as `HH:MM:SS`). -/

/-- The entry text built by `addLog`: `fmt.Sprintf("[%s] %s", clock, entry)`. -/
def logEntryChars (clock entry : GoStr) : GoStr :=
  '[' :: clock ++ ']' :: ' ' :: entry

/-- `addLog` of `main.go`: append one timestamped entry to the slice. -/
def addLog (logs : List GoStr) (clock entry : GoStr) : List GoStr :=
  logs ++ [logEntryChars clock entry]

/-- `getLastLogs` of `main.go`: the whole slice when it holds at most 10
entries, otherwise the slice from `len(logs)-10` on. -/
def getLastLogs (logs : List GoStr) : List GoStr :=
  if logs.length ≤ 10 then logs else logs.drop (logs.length - 10)

/-- The log slice after a whole sequence of `addLog` calls, each with its
own clock reading and message, starting from the program's initial `nil`. -/
def appendEntries (entries : List (GoStr × GoStr)) : List GoStr :=
  entries.foldl (fun acc e => addLog acc e.1 e.2) []

/-! ### Session controller (`isServerRunning`, `sendScreenCommand`) -/

/-- `isServerRunning` of `main.go`, as a function of the outcome of this
call's own `screen -list` query (`none` models `cmd.Output()` failing):
on success, `strings.Contains(out, screenName)`. The function has no state,
so each call is decided solely by that point-in-time query result. -/
def isServerRunning (screenListOut : Option GoStr) : Bool :=
  match screenListOut with
  | none => false
  | some out => hasSubstring screenNameChars out

/-- `sendScreenCommand` of `main.go`: it returns nothing to its caller; a
failed `screen -X stuff` only prints a diagnostic on the process's stdout.
The returned value is that stdout diagnostic (`none` when the send works). -/
def sendScreenCommand (sendFails : Bool) (_command : GoStr) : Option GoStr :=
  if sendFails then some couldNotSendChars else none

/-! ### WebSocket message and its JSON serialization

`WSMessage` carries the `json:` tags `status`, `players` and
`logs,omitempty`; `marshalWSMessage` reproduces the exact bytes
`encoding/json.Marshal` emits for it (struct-order keys, Go string
escaping, and the `logs` key dropped when the slice is empty). -/

structure WSMessage where
  status : GoStr
  players : List GoStr
  logs : List GoStr
deriving DecidableEq, Repr

/-- Lowercase hexadecimal digit, as Go's JSON encoder prints `\u00xx`. -/
def hexDigitChar (n : Nat) : Char :=
  if n < 10 then Char.ofNat (48 + n) else Char.ofNat (87 + n)

/-- One character, escaped as Go `encoding/json` (HTML escaping on, the
default for `json.Marshal`) writes it inside a string value. -/
def jsonEscapeChar (c : Char) : GoStr :=
  if c = '"' then ['\\', '"']
  else if c = '\\' then ['\\', '\\']
  else if c = '\n' then ['\\', 'n']
  else if c = '\r' then ['\\', 'r']
  else if c = '\t' then ['\\', 't']
  else if c = '<' ∨ c = '>' ∨ c = '&' ∨ c.toNat < 32 then
    ['\\', 'u', '0', '0', hexDigitChar (c.toNat / 16), hexDigitChar (c.toNat % 16)]
  else if c.toNat = 8232 then ['\\', 'u', '2', '0', '2', '8']
  else if c.toNat = 8233 then ['\\', 'u', '2', '0', '2', '9']
  else [c]

/-- A JSON string literal for `s`. -/
def jsonQuote (s : GoStr) : GoStr :=
  '"' :: (s.map jsonEscapeChar).flatten ++ ['"']

/-- The comma-separated body of a JSON array of strings. -/
def jsonArrayBody : List GoStr → GoStr
  | [] => []
  | [x] => jsonQuote x
  | x :: y :: rest => jsonQuote x ++ ',' :: jsonArrayBody (y :: rest)

/-- A JSON array of strings (a non-nil empty Go slice marshals to `[]`). -/
def jsonStringArray (xs : List GoStr) : GoStr :=
  '[' :: jsonArrayBody xs ++ [']']

def statusKeyChars : GoStr := ['"', 's', 't', 'a', 't', 'u', 's', '"']
def playersKeyChars : GoStr := ['"', 'p', 'l', 'a', 'y', 'e', 'r', 's', '"']
def logsKeyChars : GoStr := ['"', 'l', 'o', 'g', 's', '"']

/-- `json.Marshal` of a `WSMessage`: keys in struct order, and by the
`omitempty` option the `logs` member is omitted when the slice is empty. -/
def marshalWSMessage (m : WSMessage) : GoStr :=
  ['\x7b'] ++ statusKeyChars ++ [':'] ++ jsonQuote m.status
    ++ [','] ++ playersKeyChars ++ [':'] ++ jsonStringArray m.players
    ++ (if m.logs = [] then []
        else [','] ++ logsKeyChars ++ [':'] ++ jsonStringArray m.logs)
    ++ ['\x7d']

/-! ### Broadcast (`broadcastStatus`)

The `clients` map is a list of connection ids (the map's keys are distinct
live connections; `wsHandler` never registers a nil one). A write-failure
oracle `failing` says which connections' `WriteMessage` errors. -/

/-- The message `broadcastStatus` builds before the fan-out loop, together
with the fact of whether the running branch queried the roster. `snapshot`
is the hardcopy buffer `getCurrentPlayers` would read; `logs` the log slice. -/
structure StatusBuild where
  msg : WSMessage
  queriedRoster : Bool
deriving DecidableEq, Repr

/-- Message construction in `broadcastStatus`: default
`{Status: "stopped", Players: []string{}, Logs: getLastLogs()}`, overwritten
with `"running"` and `getCurrentPlayers()` when `isServerRunning()`. -/
def buildStatus (running : Bool) (snapshot : List GoStr) (logs : List GoStr) :
    StatusBuild :=
  let msg : WSMessage := ⟨stoppedChars, [], getLastLogs logs⟩
  if running then ⟨⟨runningChars, getCurrentPlayers snapshot, msg.logs⟩, true⟩
  else ⟨msg, false⟩

/-- Outcome of one fan-out pass: the connections still registered, the
`(connection, payload)` writes that succeeded, and the connections closed. -/
structure BroadcastResult where
  remaining : List Nat
  delivered : List (Nat × GoStr)
  closed : List Nat
deriving DecidableEq, Repr

/-- The `for client := range clients` loop of `broadcastStatus`: every
registered connection gets one `WriteMessage(data)`; on error the
connection is deleted from the map and closed, otherwise it stays. -/
def broadcastWrite (failing : Nat → Bool) (data : GoStr) :
    List Nat → BroadcastResult
  | [] => ⟨[], [], []⟩
  | c :: rest =>
      let r := broadcastWrite failing data rest
      if failing c then ⟨r.remaining, r.delivered, c :: r.closed⟩
      else ⟨c :: r.remaining, (c, data) :: r.delivered, r.closed⟩

/-- `broadcastStatus` of `main.go`: build the message once, marshal it once,
then fan that one byte sequence out to every registered connection. -/
def broadcastStatus (running : Bool) (snapshot : List GoStr)
    (logs : List GoStr) (failing : Nat → Bool) (clients : List Nat) :
    StatusBuild × BroadcastResult :=
  let sb := buildStatus running snapshot logs
  let data := marshalWSMessage sb.msg
  (sb, broadcastWrite failing data clients)

/-! ### HTTP handlers (`startHandler`, `stopHandler`) -/

/-- The request method; every non-`post` method takes the 405 branch. -/
inductive HttpMethod
  | get
  | post
deriving DecidableEq, Repr

/-- What a `startHandler` call does: response code and body, the log slice
afterwards, whether the `exec.Command("screen", ...).Run()` launch was
attempted, and whether `broadcastStatus` was called (when it is not, the
client map is never touched). -/
structure StartResult where
  code : Nat
  body : GoStr
  logs : List GoStr
  launched : Bool
  broadcasted : Bool
deriving DecidableEq, Repr

/-- `startHandler` of `main.go`. `running` is this call's
`isServerRunning()` observation; `launchErr` the error text of `cmd.Run()`
(`none` = launch succeeded); `clock` the `HH:MM:SS` reading `addLog`
stamps; `rfcClock` the RFC1123 reading embedded in the entry text. -/
def startHandler (method : HttpMethod) (running : Bool)
    (launchErr : Option GoStr) (clock rfcClock : GoStr)
    (logs : List GoStr) : StartResult :=
  if method ≠ HttpMethod.post then
    ⟨405, methodNotAllowedChars, logs, false, false⟩
  else if running then
    ⟨409, alreadyRunningChars, logs, false, false⟩
  else
    match launchErr with
    | some e =>
        ⟨500, failedStartChars,
          addLog logs clock (failedStartChars ++ ':' :: ' ' :: e), true, false⟩
    | none =>
        ⟨200, [], addLog logs clock (startedAtChars ++ rfcClock), true, true⟩

/-- What a `stopHandler` call does; `stdoutDiag` is what
`sendScreenCommand` printed on the process's stdout (never the Log Store). -/
structure StopResult where
  code : Nat
  body : GoStr
  logs : List GoStr
  stdoutDiag : Option GoStr
  broadcasted : Bool
deriving DecidableEq, Repr

/-- `stopHandler` of `main.go`: 405 on a non-POST, 409 when not running;
otherwise it sends `"exit"` via `sendScreenCommand` — whose failure it
cannot even observe, the function returns nothing — then unconditionally
logs "Server stopped at ..." and broadcasts, so the response is 200. -/
def stopHandler (method : HttpMethod) (running : Bool) (sendFails : Bool)
    (clock rfcClock : GoStr) (logs : List GoStr) : StopResult :=
  if method ≠ HttpMethod.post then
    ⟨405, methodNotAllowedChars, logs, none, false⟩
  else if !running then
    ⟨409, notRunningChars, logs, none, false⟩
  else
    ⟨200, [], addLog logs clock (stoppedAtChars ++ rfcClock),
      sendScreenCommand sendFails exitChars, true⟩

/-! ## Lemmas about the string helpers -/

theorem startsWithChars_iff (pat s : GoStr) :
    startsWithChars pat s = true ↔ ∃ t, s = pat ++ t := by
  induction pat generalizing s with
  | nil => simp [startsWithChars]
  | cons p ps ih =>
    cases s with
    | nil => simp [startsWithChars]
    | cons c cs =>
      simp only [startsWithChars, Bool.and_eq_true, beq_iff_eq, ih,
        List.cons_append, List.cons.injEq]
      constructor
      · rintro ⟨rfl, t, rfl⟩
        exact ⟨t, rfl, rfl⟩
      · rintro ⟨t, rfl, rfl⟩
        exact ⟨rfl, t, rfl⟩

theorem hasSubstring_iff (pat s : GoStr) :
    hasSubstring pat s = true ↔ ∃ pre post, s = pre ++ pat ++ post := by
  induction s with
  | nil =>
    cases pat with
    | nil => exact ⟨fun _ => ⟨[], [], rfl⟩, fun _ => rfl⟩
    | cons p ps =>
      simp only [hasSubstring, startsWithChars]
      constructor
      · intro h
        exact absurd h (by simp)
      · rintro ⟨pre, post, h⟩
        exact absurd h.symm (by simp)
  | cons c cs ih =>
    simp only [hasSubstring, Bool.or_eq_true, startsWithChars_iff, ih]
    constructor
    · rintro (⟨t, ht⟩ | ⟨pre, post, h⟩)
      · exact ⟨[], t, by simpa using ht⟩
      · exact ⟨c :: pre, post, by simp [h]⟩
    · rintro ⟨pre, post, h⟩
      cases pre with
      | nil => exact Or.inl ⟨post, by simpa using h⟩
      | cons p pre =>
        rw [List.cons_append, List.cons_append] at h
        obtain ⟨-, h⟩ := List.cons.injEq .. ▸ h
        exact Or.inr ⟨pre, post, by simpa using h⟩

theorem trimLeftChars_eq_dropWhile (s : GoStr) :
    trimLeftChars s = s.dropWhile goIsSpace := by
  induction s with
  | nil => rfl
  | cons c cs ih =>
    by_cases h : goIsSpace c = true
    · simp [trimLeftChars, List.dropWhile_cons, h, ih]
    · simp [trimLeftChars, List.dropWhile_cons, h]

theorem afterFirstColon_eq_dropWhile (s : GoStr) :
    afterFirstColon s =
      match s.dropWhile (fun c => c != ':') with
      | [] => none
      | _ :: rest => some rest := by
  induction s with
  | nil => rfl
  | cons c cs ih =>
    by_cases h : c = ':'
    · subst h
      simp [afterFirstColon, List.dropWhile_cons]
    · simp [afterFirstColon, List.dropWhile_cons, h, ih]

theorem findMarkerFromEnd_eq_find (ls : List GoStr) :
    findMarkerFromEnd ls = ls.find? isPlayersMarker := by
  induction ls with
  | nil => rfl
  | cons l rest ih =>
    by_cases h : isPlayersMarker l = true
    · simp [findMarkerFromEnd, List.find?_cons, h]
    · simp [findMarkerFromEnd, List.find?_cons, h, ih]

theorem parsePlayersLine_eq_specParse (line : GoStr) :
    parsePlayersLine line =
      match line.dropWhile (fun c => c != ':') with
      | [] => []
      | _ :: rest =>
          let t := (((rest.dropWhile goIsSpace).reverse).dropWhile goIsSpace).reverse
          if t = noneChars ∨ t = [] then [] else splitCS [] t := by
  unfold parsePlayersLine
  rw [afterFirstColon_eq_dropWhile]
  cases hd : line.dropWhile (fun c => c != ':') with
  | nil => rfl
  | cons x rest => simp only [goTrimSpace, trimLeftChars_eq_dropWhile]

/-- Claim C1: for every snapshot buffer, the player extraction
(`getCurrentPlayers`'s bottom-up scan plus `parsePlayersLine`) computes
exactly what the spec describes: the parse of the bottommost line beginning
with `"Current players"` or `"Players:"` — text after the first colon,
whitespace-trimmed, with `"None"` or the empty remainder giving the empty
roster and anything else split on `", "` — and the empty roster when no
line of the buffer begins with an accepted marker. -/
theorem c1_extraction_matches_spec (lines : List GoStr) :
    getCurrentPlayers lines = extractPlayersSpec lines := by
  unfold getCurrentPlayers extractPlayersSpec
  rw [findMarkerFromEnd_eq_find]
  have hm : isPlayersMarker = fun l =>
      startsWithChars currentPlayersChars l
        || startsWithChars playersColonChars l := rfl
  rw [hm]
  cases hf : lines.reverse.find? (fun l =>
      startsWithChars currentPlayersChars l
        || startsWithChars playersColonChars l) with
  | none => rfl
  | some line => exact parsePlayersLine_eq_specParse line

theorem afterFirstColon_of_no_colon (l : GoStr) (h : ':' ∉ l) :
    afterFirstColon l = none := by
  induction l with
  | nil => rfl
  | cons c cs ih =>
    simp only [List.mem_cons, not_or] at h
    have hc : ¬ c = ':' := fun e => h.1 e.symm
    simp [afterFirstColon, hc, ih h.2]

/-- Claim C10: a snapshot line that begins with the accepted marker
`"Current players"` but holds no colon at all makes `parsePlayersLine`
return the empty roster rather than fail, and a buffer whose bottommost
line is such a line extracts to "nobody online". -/
theorem c10_marker_without_colon (earlier : List GoStr) (l : GoStr)
    (h1 : startsWithChars currentPlayersChars l = true) (h2 : ':' ∉ l) :
    getCurrentPlayers (earlier ++ [l]) = [] ∧ parsePlayersLine l = [] := by
  have hp : parsePlayersLine l = [] := by
    unfold parsePlayersLine
    rw [afterFirstColon_of_no_colon l h2]
  refine ⟨?_, hp⟩
  unfold getCurrentPlayers
  have hm : isPlayersMarker l = true := by
    unfold isPlayersMarker
    rw [h1, Bool.true_or]
  simp [findMarkerFromEnd, hm, hp]

/-- Concrete instance of C10: the bare line `"Current players"` (no colon). -/
theorem c10_marker_without_colon_witness :
    getCurrentPlayers ([] ++ [currentPlayersChars]) = [] ∧
      parsePlayersLine currentPlayersChars = [] :=
  c10_marker_without_colon [] currentPlayersChars (by decide) (by decide)

/-! ## Lemmas about the log store -/

theorem getLastLogs_eq_drop (logs : List GoStr) :
    getLastLogs logs = logs.drop (logs.length - 10) := by
  unfold getLastLogs
  split
  · next h =>
      have h0 : logs.length - 10 = 0 := Nat.sub_eq_zero_of_le h
      rw [h0, List.drop_zero]
  · rfl

theorem length_getLastLogs (logs : List GoStr) :
    (getLastLogs logs).length = min logs.length 10 := by
  rw [getLastLogs_eq_drop, List.length_drop]
  omega

theorem getLastLogs_isSuffix (logs : List GoStr) :
    getLastLogs logs <:+ logs := by
  rw [getLastLogs_eq_drop]
  exact ⟨logs.take (logs.length - 10), List.take_append_drop _ _⟩

theorem getLastLogs_ne_nil {logs : List GoStr} (h : logs ≠ []) :
    getLastLogs logs ≠ [] := by
  have hpos : 0 < logs.length := List.length_pos.mpr h
  intro e
  have hl := length_getLastLogs logs
  rw [e] at hl
  simp only [List.length_nil] at hl
  omega

theorem appendEntries_eq_map (entries : List (GoStr × GoStr)) :
    appendEntries entries = entries.map (fun e => logEntryChars e.1 e.2) := by
  suffices h : ∀ init, entries.foldl (fun acc e => addLog acc e.1 e.2) init
      = init ++ entries.map (fun e => logEntryChars e.1 e.2) by
    simpa [appendEntries] using h []
  induction entries with
  | nil => intro init; simp
  | cons e rest ih =>
    intro init
    rw [List.foldl_cons, ih]
    simp [addLog, List.append_assoc]

/-- Claim C6: after any sequence of `addLog` calls, `getLastLogs` returns
at most 10 entries; it returns exactly the final (most recently appended)
ten — the drop of all but the last ten — and what it returns is a
contiguous suffix of the store, so the original append order is kept. -/
theorem c6_recent_window (entries : List (GoStr × GoStr)) :
    (getLastLogs (appendEntries entries)).length ≤ 10 ∧
    getLastLogs (appendEntries entries) =
      (appendEntries entries).drop ((appendEntries entries).length - 10) ∧
    getLastLogs (appendEntries entries) <:+ appendEntries entries := by
  refine ⟨?_, getLastLogs_eq_drop _, getLastLogs_isSuffix _⟩
  rw [length_getLastLogs]
  omega

/-- Claim C9: the store only ever grows — `addLog` appends one formatted
entry and nothing ever deletes one, so after `n` appends the internal
sequence holds exactly `n` entries — while `getLastLogs` exposes only a
suffix window of at most 10 of them. -/
theorem c9_append_only (entries : List (GoStr × GoStr)) :
    (appendEntries entries).length = entries.length ∧
    (∀ logs clock entry,
      addLog logs clock entry = logs ++ [logEntryChars clock entry]) ∧
    (getLastLogs (appendEntries entries)).length ≤ 10 ∧
    getLastLogs (appendEntries entries) <:+ appendEntries entries := by
  refine ⟨?_, fun _ _ _ => rfl, ?_, getLastLogs_isSuffix _⟩
  · rw [appendEntries_eq_map, List.length_map]
  · rw [length_getLastLogs]
    omega

/-- Claim C4: `isServerRunning` answers true exactly when the configured
session name occurs in this call's `screen -list` output (and false when
the query itself fails); it is a pure function of that point-in-time query
result, so nothing is cached between calls. -/
theorem c4_is_running_iff_name_in_output (out : GoStr) :
    (isServerRunning (some out) = true ↔
      ∃ pre post, out = pre ++ screenNameChars ++ post) ∧
    isServerRunning none = false :=
  ⟨hasSubstring_iff _ _, rfl⟩

/-- Claim C5: a POST to `/start` while the session is detected live answers
409 with body "Server already running", attempts no OS launch, appends no
log entry and triggers no broadcast (so the subscriber set is untouched). -/
theorem c5_start_while_running (launchErr : Option GoStr)
    (clock rfcClock : GoStr) (logs : List GoStr) :
    startHandler .post true launchErr clock rfcClock logs =
      ⟨409, alreadyRunningChars, logs, false, false⟩ := rfl

/-! ## Claim C3: `/stop` when sending "exit" fails -/

def clockSample : GoStr := "12:00:00".toList
def rfcSample : GoStr := "Sat, 11 Oct 2026 12:00:00 UTC".toList

/-- Claim C3 is false of the code: with the session live and the `exit`
send failing, `stopHandler` still answers 200 (not 500), the only entry
appended to the Log Store is "Server stopped at ...", and the failure text
goes only to the process stdout. -/
theorem c3_send_failure_counterexample :
    (stopHandler .post true true clockSample rfcSample []).code = 200 ∧
    (stopHandler .post true true clockSample rfcSample []).code ≠ 500 ∧
    (stopHandler .post true true clockSample rfcSample []).logs =
      [logEntryChars clockSample (stoppedAtChars ++ rfcSample)] ∧
    (stopHandler .post true true clockSample rfcSample []).stdoutDiag =
      some couldNotSendChars :=
  ⟨rfl, by decide, rfl, rfl⟩

/-- Claim C3 amended: when a stop request is accepted (POST, session live)
but sending "exit" fails, the handler cannot observe the failure: it
responds 200, appends the usual "Server stopped at ..." entry to the Log
Store, broadcasts, and the failure is only a stdout diagnostic. -/
theorem c3_send_failure_amended (sendFails : Bool) (clock rfcClock : GoStr)
    (logs : List GoStr) :
    stopHandler .post true sendFails clock rfcClock logs =
      ⟨200, [], addLog logs clock (stoppedAtChars ++ rfcClock),
        sendScreenCommand sendFails exitChars, true⟩ := rfl

/-! ## Broadcast fan-out -/

theorem broadcastWrite_spec (failing : Nat → Bool) (data : GoStr)
    (clients : List Nat) :
    broadcastWrite failing data clients =
      ⟨clients.filter (fun c => !failing c),
       (clients.filter (fun c => !failing c)).map (fun c => (c, data)),
       clients.filter (fun c => failing c)⟩ := by
  induction clients with
  | nil => rfl
  | cons c rest ih =>
    by_cases h : failing c = true
    · simp [broadcastWrite, List.filter_cons, h, ih]
    · simp [broadcastWrite, List.filter_cons, h, ih]

/-- Claim C2: one broadcast pass serializes the built snapshot message once
and attempts that identical byte sequence on every registered connection:
the connections whose write fails are exactly the ones removed and closed
within the pass, and every other connection stays registered and receives
exactly one copy of that one serialization. -/
theorem c2_broadcast_fanout (running : Bool) (snapshot logs : List GoStr)
    (failing : Nat → Bool) (clients : List Nat) :
    (broadcastStatus running snapshot logs failing clients).2.remaining =
      clients.filter (fun c => !failing c) ∧
    (broadcastStatus running snapshot logs failing clients).2.closed =
      clients.filter (fun c => failing c) ∧
    (broadcastStatus running snapshot logs failing clients).2.delivered =
      (clients.filter (fun c => !failing c)).map (fun c =>
        (c, marshalWSMessage
          (broadcastStatus running snapshot logs failing clients).1.msg)) := by
  simp [broadcastStatus, broadcastWrite_spec]

/-! ## The serialized message shape (claims C7, C8) -/

theorem buildStatus_logs (running : Bool) (snapshot logs : List GoStr) :
    (buildStatus running snapshot logs).msg.logs = getLastLogs logs := by
  cases running <;> rfl

theorem buildStatus_status (running : Bool) (snapshot logs : List GoStr) :
    (buildStatus running snapshot logs).msg.status =
      if running then runningChars else stoppedChars := by
  cases running <;> rfl

theorem marshal_has_status_key (m : WSMessage) :
    ∃ pre post, marshalWSMessage m = pre ++ statusKeyChars ++ post := by
  refine ⟨['\x7b'],
    [':'] ++ jsonQuote m.status ++ [','] ++ playersKeyChars ++ [':']
      ++ jsonStringArray m.players
      ++ (if m.logs = [] then []
          else [','] ++ logsKeyChars ++ [':'] ++ jsonStringArray m.logs)
      ++ ['\x7d'], ?_⟩
  simp [marshalWSMessage, List.append_assoc]

theorem marshal_has_players_key (m : WSMessage) :
    ∃ pre post, marshalWSMessage m = pre ++ playersKeyChars ++ post := by
  refine ⟨['\x7b'] ++ statusKeyChars ++ [':'] ++ jsonQuote m.status ++ [','],
    [':'] ++ jsonStringArray m.players
      ++ (if m.logs = [] then []
          else [','] ++ logsKeyChars ++ [':'] ++ jsonStringArray m.logs)
      ++ ['\x7d'], ?_⟩
  simp [marshalWSMessage, List.append_assoc]

theorem marshal_has_logs_key (m : WSMessage) (h : m.logs ≠ []) :
    ∃ pre post, marshalWSMessage m = pre ++ logsKeyChars ++ post := by
  refine ⟨['\x7b'] ++ statusKeyChars ++ [':'] ++ jsonQuote m.status ++ [',']
      ++ playersKeyChars ++ [':'] ++ jsonStringArray m.players ++ [','],
    [':'] ++ jsonStringArray m.logs ++ ['\x7d'], ?_⟩
  simp [marshalWSMessage, List.append_assoc, if_neg h]

/-- Claim C7 is false of the code: the message a broadcast pushes for a
stopped server with an EMPTY Log Store is exactly
`{"status":"stopped","players":[]}` — the `omitempty` option on the `Logs`
member drops the "logs" key, so not all three keys are present. -/
theorem c7_logs_key_counterexample :
    (broadcastStatus false [] [] (fun _ => false) [0]).2.delivered =
      [(0, "\x7b\"status\":\"stopped\",\"players\":[]\x7d".toList)] ∧
    hasSubstring logsKeyChars
      (marshalWSMessage (buildStatus false [] []).msg) = false := by
  exact ⟨by decide, by decide⟩

/-- Claim C7 amended: every broadcast message is a JSON object whose
"status" value is "running" or "stopped" and which contains the keys
"status" and "players"; the "logs" key is present whenever the Log Store
is nonempty (it is omitted for the empty store by `omitempty`). -/
theorem c7_message_shape_amended (running : Bool) (snapshot logs : List GoStr) :
    ((buildStatus running snapshot logs).msg.status = runningChars ∨
      (buildStatus running snapshot logs).msg.status = stoppedChars) ∧
    (∃ pre post, marshalWSMessage (buildStatus running snapshot logs).msg =
      pre ++ statusKeyChars ++ post) ∧
    (∃ pre post, marshalWSMessage (buildStatus running snapshot logs).msg =
      pre ++ playersKeyChars ++ post) ∧
    (logs ≠ [] →
      ∃ pre post, marshalWSMessage (buildStatus running snapshot logs).msg =
        pre ++ logsKeyChars ++ post) := by
  refine ⟨?_, marshal_has_status_key _, marshal_has_players_key _, fun h => ?_⟩
  · rw [buildStatus_status]
    cases running
    · exact Or.inr (by simp)
    · exact Or.inl (by simp)
  · refine marshal_has_logs_key _ ?_
    rw [buildStatus_logs]
    exact getLastLogs_ne_nil h

def sampleLogEntry : GoStr := "[12:00:00] boot".toList

/-- Concrete instance of the amended C7: with one entry in the Log Store,
the serialized broadcast message does carry the "logs" key. -/
theorem c7_message_shape_witness :
    ∃ pre post, marshalWSMessage (buildStatus false [] [sampleLogEntry]).msg =
      pre ++ logsKeyChars ++ post :=
  (c7_message_shape_amended false [] [sampleLogEntry]).2.2.2 (by decide)

/-! ## Claim C8: the broadcast after a successful start -/

theorem getCurrentPlayers_no_marker (snapshot : List GoStr)
    (h : ∀ l ∈ snapshot, isPlayersMarker l = false) :
    getCurrentPlayers snapshot = [] := by
  unfold getCurrentPlayers
  rw [findMarkerFromEnd_eq_find]
  have hn : snapshot.reverse.find? isPlayersMarker = none :=
    List.find?_eq_none.mpr (fun x hx => by
      simp [h x (List.mem_reverse.mp hx)])
  rw [hn]

theorem mem_getLastLogs_append (logs : List GoStr) (e : GoStr) :
    e ∈ getLastLogs (logs ++ [e]) := by
  rw [getLastLogs_eq_drop]
  have hle : (logs ++ [e]).length - 10 ≤ logs.length := by
    rw [List.length_append]
    simp
  rw [List.drop_append_of_le_length hle]
  exact List.mem_append_right _ (by simp)

theorem startedAt_decomposition :
    startedAtChars = "Server ".toList ++ startedChars ++ " at ".toList := by
  decide

def aliceChars : GoStr := "Alice".toList
def samplePlayersLine : GoStr := "Players: Alice".toList

/-- Claim C8 is false of the code as stated: the broadcast triggered by a
successful start DOES perform a roster query (`broadcastStatus` calls
`getCurrentPlayers` whenever the session is live), and its players list is
whatever that fresh snapshot parses to — here `["Alice"]`, not empty. -/
theorem c8_start_broadcast_counterexample :
    (startHandler .post false none clockSample rfcSample []).broadcasted = true ∧
    (buildStatus true [samplePlayersLine]
      (startHandler .post false none clockSample rfcSample []).logs).queriedRoster
      = true ∧
    (buildStatus true [samplePlayersLine]
      (startHandler .post false none clockSample rfcSample []).logs).msg.players
      = [aliceChars] ∧
    (buildStatus true [samplePlayersLine]
      (startHandler .post false none clockSample rfcSample []).logs).msg.players
      ≠ [] := by
  exact ⟨rfl, rfl, by decide, by decide⟩

/-- Claim C8 amended: the one broadcast a successful start triggers (with
the session then live) carries status "running", a players list equal to
the roster freshly queried and scraped from the session's snapshot by that
same broadcast — in particular empty whenever the snapshot shows no
player-list marker line, as right after startup — and its recent-logs
window holds an entry containing "started". -/
theorem c8_start_broadcast_amended (clock rfcClock : GoStr)
    (logs snapshot : List GoStr) :
    (startHandler .post false none clock rfcClock logs).code = 200 ∧
    (startHandler .post false none clock rfcClock logs).broadcasted = true ∧
    (buildStatus true snapshot
      (startHandler .post false none clock rfcClock logs).logs).msg.status =
      runningChars ∧
    (buildStatus true snapshot
      (startHandler .post false none clock rfcClock logs).logs).queriedRoster =
      true ∧
    (buildStatus true snapshot
      (startHandler .post false none clock rfcClock logs).logs).msg.players =
      getCurrentPlayers snapshot ∧
    ((∀ l ∈ snapshot, isPlayersMarker l = false) →
      (buildStatus true snapshot
        (startHandler .post false none clock rfcClock logs).logs).msg.players
        = []) ∧
    (∃ e ∈ (buildStatus true snapshot
        (startHandler .post false none clock rfcClock logs).logs).msg.logs,
      ∃ pre post, e = pre ++ startedChars ++ post) := by
  refine ⟨rfl, rfl, rfl, rfl, rfl, fun h => ?_, ?_⟩
  · show getCurrentPlayers snapshot = []
    exact getCurrentPlayers_no_marker snapshot h
  · refine ⟨logEntryChars clock (startedAtChars ++ rfcClock), ?_, ?_⟩
    · show logEntryChars clock (startedAtChars ++ rfcClock) ∈
        getLastLogs (addLog logs clock (startedAtChars ++ rfcClock))
      exact mem_getLastLogs_append _ _
    · refine ⟨'[' :: clock ++ ']' :: ' ' :: "Server ".toList,
        " at ".toList ++ rfcClock, ?_⟩
      show logEntryChars clock (startedAtChars ++ rfcClock) = _
      rw [logEntryChars, startedAt_decomposition]
      simp [List.append_assoc]

/-- Concrete instance of the amended C8: right after a successful start,
with the hardcopy snapshot still empty, the broadcast message says
"running" with an empty players list. -/
theorem c8_start_broadcast_witness :
    (buildStatus true []
      (startHandler .post false none clockSample rfcSample []).logs).msg.status =
      runningChars ∧
    (buildStatus true []
      (startHandler .post false none clockSample rfcSample []).logs).msg.players =
      [] :=
  ⟨(c8_start_broadcast_amended clockSample rfcSample [] []).2.2.1,
   (c8_start_broadcast_amended clockSample rfcSample [] []).2.2.2.2.2.1
     (fun l hl => absurd hl (List.not_mem_nil l))⟩

end TModServer
